import Mathlib

/-!
Verification of the SKA animation importer
(`src/Scooby_Animation_Importer.py`).

The development shallowly embeds the two core components of the source:

* `parseSka` — the byte-level decoder `parse_ska_file` (reading the header,
  keyframe pool, time table and key-offset grid, building per-bone tracks
  and sorting them);
* `applySka` — the retargeting pass `apply_ska_to_armature` together with
  `build_bone_index_to_pose_bone_map` and `create_or_clear_action`,
  rendered as an explicit transformation of a host state.

Design notes on the embedding:

* Bytes are natural numbers taken modulo 256; all multi-byte reads are
  big-endian exactly as in the source (`struct.unpack_from(">I"/">H"/">h"/">f")`).
* IEEE-754 single-precision bit patterns are decoded exactly into the
  inductive type `F32` (`finite q` with `q : ℚ` the exact value, or one of
  the non-finite values).  Time values are only ever stored and compared,
  so this decoding is exact and executable.  The comparison used by the
  track sort follows Python float comparison; `nan` (whose Python
  comparisons are all false, making sort order implementation-defined)
  is placed above `inf` to obtain a total order — theorems that depend on
  the sort restrict attention to nan-free time tables.
* Quaternion/translation components undergo real arithmetic in the source
  (division by 32767.0, squaring, square root).  That arithmetic is
  abstracted into a carrier structure `QArith R` so that every definition
  stays executable; the faithfulness of a carrier to exact real semantics
  is expressed by hypotheses on its fields where a claim depends on the
  numeric values (quaternion normalization).  Float rounding is idealized
  as exact arithmetic throughout, matching the spec's "within floating
  tolerance" reading.
* Errors raised by `parse_ska_file` are the two `ValueError`s of the
  source; they are embedded as the inductive `ParseError`, and
  `ParseError.message` reproduces the exact Python message text.
-/

/-! ## Byte-level readers -/

/-- A byte of the input buffer: out-of-range list entries are reduced
mod 256, so every `List ℕ` denotes a byte buffer. Reads past the end give
0; the decoder only reads inside the validated layout. -/
def byteAt (d : List ℕ) (i : ℕ) : ℕ := (d.getD i 0) % 256

/-- Model of `read_uint16_big_endian`. -/
def readU16 (d : List ℕ) (off : ℕ) : ℕ :=
  byteAt d off * 256 + byteAt d (off + 1)

/-- Model of `read_uint32_big_endian`. -/
def readU32 (d : List ℕ) (off : ℕ) : ℕ :=
  ((byteAt d off * 256 + byteAt d (off + 1)) * 256 + byteAt d (off + 2)) * 256
    + byteAt d (off + 3)

/-- Model of `read_int16_big_endian`: two's-complement signed 16-bit. -/
def readI16 (d : List ℕ) (off : ℕ) : ℤ :=
  let v := readU16 d off
  if v < 0x8000 then (v : ℤ) else (v : ℤ) - 0x10000

/-! ## Exact decoding of IEEE-754 single-precision bit patterns -/

/-- The value denoted by a 32-bit float pattern: an exact rational for
finite patterns, or one of the non-finite values. -/
inductive F32 : Type
  | finite (q : ℚ)
  | inf
  | neginf
  | nan
deriving DecidableEq, Repr

/-- Exact value of a single-precision bit pattern (big-endian reads feed
this).  Finite values are exact rationals; exponent 255 gives the
non-finite values. -/
def f32FromBits (bits : ℕ) : F32 :=
  let b : ℕ := bits % 2 ^ 32
  let sign : ℕ := b / 2 ^ 31
  let expo : ℕ := b / 2 ^ 23 % 2 ^ 8
  let frac : ℕ := b % 2 ^ 23
  if expo = 255 then
    if frac = 0 then (if sign = 0 then F32.inf else F32.neginf) else F32.nan
  else
    let mag : ℚ :=
      if expo = 0 then (frac : ℚ) / 2 ^ 149
      else ((2 ^ 23 + frac : ℕ) : ℚ) * 2 ^ expo / 2 ^ 150
    F32.finite (if sign = 0 then mag else -mag)

/-- Model of `read_float32_big_endian`. -/
def readF32 (d : List ℕ) (off : ℕ) : F32 := f32FromBits (readU32 d off)

/-- Rational shadow of a float value, used where the source multiplies a
raw integer by a header scale: non-finite scales are outside the model
(they are mapped to 0). -/
def F32.toRat : F32 → ℚ
  | F32.finite q => q
  | _ => 0

/-- Python `<` on float values (`None` never reaches this comparison; the
sort key substitutes `inf` first).  `nan` is placed above `inf` to make
the order total; Python's own comparisons with `nan` are all false. -/
def F32.ltB : F32 → F32 → Bool
  | F32.neginf, F32.neginf => false
  | F32.neginf, _ => true
  | F32.finite _, F32.neginf => false
  | F32.finite a, F32.finite b => decide (a < b)
  | F32.finite _, _ => true
  | F32.inf, F32.nan => true
  | F32.inf, _ => false
  | F32.nan, _ => false

/-! ## Abstract real arithmetic carrier

The source performs float arithmetic on quaternion and translation
components (`/ 32767.0`, squaring, `** 0.5`, scaling).  `QArith R`
packages exactly the operations the decoder uses, keeping the decoder
executable for any executable carrier while letting theorems constrain a
carrier to exact real semantics. -/

structure QArith (R : Type) where
  ofRat : ℚ → R
  add : R → R → R
  mul : R → R → R
  div : R → R → R
  sqrt : R → R
  ltB : R → R → Bool

/-- Lines 129–133 of the source: divide each raw int16 component by
32767.0, and if the sum of squares exceeds 1e-12, divide each component
by the square root of that sum. -/
def decodeQuat {R : Type} (ar : QArith R) (raw : ℤ × ℤ × ℤ × ℤ) : R × R × R × R :=
  let q0 := ar.div (ar.ofRat raw.1) (ar.ofRat 32767)
  let q1 := ar.div (ar.ofRat raw.2.1) (ar.ofRat 32767)
  let q2 := ar.div (ar.ofRat raw.2.2.1) (ar.ofRat 32767)
  let q3 := ar.div (ar.ofRat raw.2.2.2) (ar.ofRat 32767)
  let lengthSquared :=
    ar.add (ar.add (ar.add (ar.add (ar.ofRat 0) (ar.mul q0 q0)) (ar.mul q1 q1))
      (ar.mul q2 q2)) (ar.mul q3 q3)
  if ar.ltB (ar.ofRat (1 / 10 ^ 12)) lengthSquared then
    let len := ar.sqrt lengthSquared
    (ar.div q0 len, ar.div q1 len, ar.div q2 len, ar.div q3 len)
  else
    (q0, q1, q2, q3)

/-! ## Decoder data model -/

/-- Model of `header_information` as returned by `parse_ska_file` (the magic is
stored as the parsed number; the source renders it in hex). -/
structure SkaHeader : Type where
  magic : ℕ
  flags : ℕ
  bone_count : ℕ
  time_count : ℕ
  keyframe_count : ℕ
  scale_values_xyz : F32 × F32 × F32
  file_size_in_bytes : ℕ
deriving DecidableEq, Repr

/-- One pooled keyframe as built in the decoder loop. -/
structure SkaKeyframe (R : Type) : Type where
  index : ℕ
  time_index : ℕ
  time : Option F32
  quaternion : R × R × R × R
  translation : R × R × R
deriving DecidableEq, Repr

/-- One per-bone track entry (the dictionaries appended at source lines
184–191).  The payload fields are optional because the retargeter reads
them with `dict.get`; the decoder always fills them. -/
structure TrackEntry (R : Type) : Type where
  frame_time_slot_index : ℕ
  absolute_time_value : Option F32
  quaternion : Option (R × R × R × R)
  translation : Option (R × R × R)
deriving DecidableEq, Repr

/-- The decoder's result dictionary. -/
structure ParsedSka (R : Type) : Type where
  header : SkaHeader
  time_values : List F32
  bone_animation_tracks : List (List (TrackEntry R))
deriving DecidableEq, Repr

/-- The two `ValueError`s `parse_ska_file` can raise.  The layout error
carries the byte counts interpolated into its message. -/
inductive ParseError : Type
  | headerTooSmall
  | layoutTooSmall (required : ℕ) (actual : ℕ)
deriving DecidableEq, Repr

/-- Exact Python message text of each error. -/
def ParseError.message : ParseError → String
  | ParseError.headerTooSmall =>
      "File is too small to contain a valid SKA/SKB header."
  | ParseError.layoutTooSmall required actual =>
      "File too small for expected SKA layout. Need " ++ toString required
        ++ " bytes, have " ++ toString actual ++ " bytes."

/-! ## Layout arithmetic (source lines 57–94) -/

/-- Value of `max(time_count - 1, 0)` — truncated subtraction on ℕ. -/
def offsetTimeSlotCount (time_count : ℕ) : ℕ := time_count - 1

/-- Start of the time-value block: header plus keyframe pool. -/
def timeValuesStart (keyframe_count : ℕ) : ℕ := 0x1C + keyframe_count * 16

/-- Start of the key-offset grid. -/
def keyOffsetsStart (keyframe_count time_count : ℕ) : ℕ :=
  timeValuesStart keyframe_count + time_count * 4

/-- Value of `total_expected_size` computed from the header fields of a buffer. -/
def totalExpectedSize (d : List ℕ) : ℕ :=
  keyOffsetsStart (readU32 d 12) (readU16 d 10)
    + offsetTimeSlotCount (readU16 d 10) * readU16 d 8 * 2

/-! ## Reading the three payload blocks (source lines 102–168) -/

/-- Model of `time_values`: `time_count` big-endian floats after the keyframe
pool. -/
def timeValuesOf (d : List ℕ) : List F32 :=
  (List.range (readU16 d 10)).map fun time_index =>
    readF32 d (timeValuesStart (readU32 d 12) + time_index * 4)

/-- The keyframe-pool entry at `keyframe_index` (source lines 111–153). -/
def keyframeAt {R : Type} (ar : QArith R) (d : List ℕ) (time_values : List F32)
    (scale : F32 × F32 × F32) (keyframe_index : ℕ) : SkaKeyframe R :=
  let base : ℕ := 0x1C + keyframe_index * 16
  let rawTime : ℕ := readU16 d base
  let rawQuat : ℤ × ℤ × ℤ × ℤ :=
    (readI16 d (base + 2), readI16 d (base + 4), readI16 d (base + 6),
      readI16 d (base + 8))
  let rawTrans : ℤ × ℤ × ℤ :=
    (readI16 d (base + 10), readI16 d (base + 12), readI16 d (base + 14))
  { index := keyframe_index
    time_index := rawTime
    time := time_values[rawTime]?
    quaternion := decodeQuat ar rawQuat
    translation :=
      (ar.mul (ar.ofRat rawTrans.1) (ar.ofRat scale.1.toRat),
        ar.mul (ar.ofRat rawTrans.2.1) (ar.ofRat scale.2.1.toRat),
        ar.mul (ar.ofRat rawTrans.2.2) (ar.ofRat scale.2.2.toRat)) }

/-- The keyframe pool. -/
def keyframesOf {R : Type} (ar : QArith R) (d : List ℕ) : List (SkaKeyframe R) :=
  let scale : F32 × F32 × F32 := (readF32 d 16, readF32 d 20, readF32 d 24)
  (List.range (readU32 d 12)).map (keyframeAt ar d (timeValuesOf d) scale)

/-- Model of `key_offset_grid`: `(time_count - 1)` rows of `bone_count` uint16
cells, row-major after the time table (source lines 156–168). -/
def keyOffsetGridOf (d : List ℕ) : List (List ℕ) :=
  let bone_count : ℕ := readU16 d 8
  let start : ℕ := keyOffsetsStart (readU32 d 12) (readU16 d 10)
  (List.range (offsetTimeSlotCount (readU16 d 10))).map fun time_slot_index =>
    (List.range bone_count).map fun bone_index =>
      readU16 d (start + time_slot_index * bone_count * 2 + bone_index * 2)

/-! ## Per-bone track construction (source lines 171–199) -/

/-- Fallback keyframe for the (unreachable, length-checked) out-of-range
pool access. -/
def dummyKeyframe {R : Type} (ar : QArith R) : SkaKeyframe R :=
  { index := 0, time_index := 0, time := none
    quaternion := (ar.ofRat 0, ar.ofRat 0, ar.ofRat 0, ar.ofRat 0)
    translation := (ar.ofRat 0, ar.ofRat 0, ar.ofRat 0) }

/-- The track entry built from a pooled keyframe at a time slot (source
lines 184–191). -/
def trackEntryOfKeyframe {R : Type} (time_slot_index : ℕ) (kf : SkaKeyframe R) :
    TrackEntry R :=
  { frame_time_slot_index := time_slot_index
    absolute_time_value := kf.time
    quaternion := some kf.quaternion
    translation := some kf.translation }

/-- The contribution of grid cell `(time_slot_index, bone_index)` to the
track of its bone: skipped if the cell holds the sentinel `0xFFFF` or a
value at or above `keyframe_count`, otherwise one entry referencing the
pooled keyframe at that value (source lines 173–191). -/
def cellContribution {R : Type} (ar : QArith R) (keyframes : List (SkaKeyframe R))
    (keyframe_count : ℕ) (grid : List (List ℕ)) (bone_index time_slot_index : ℕ) :
    Option (TrackEntry R) :=
  let v : ℕ := (grid.getD time_slot_index []).getD bone_index 0xFFFF
  if v = 0xFFFF then none
  else if keyframe_count ≤ v then none
  else some (trackEntryOfKeyframe time_slot_index
    (keyframes.getD v (dummyKeyframe ar)))

/-- The per-bone track before sorting: entries appear in increasing
time-slot order because the source's outer loop runs over time slots. -/
def rawTrackOf {R : Type} (ar : QArith R) (keyframes : List (SkaKeyframe R))
    (keyframe_count : ℕ) (grid : List (List ℕ)) (rows bone_index : ℕ) :
    List (TrackEntry R) :=
  (List.range rows).filterMap
    (cellContribution ar keyframes keyframe_count grid bone_index)

/-- The sort key of source lines 194–199: the resolved time with `None`
replaced by `float("inf")`, tie-broken by the time-slot index. -/
def entryTimeKey {R : Type} (e : TrackEntry R) : F32 :=
  e.absolute_time_value.getD F32.inf

/-- Comparison realizing the Python ascending sort on the key
`(time-or-inf, time_slot_index)`. -/
def entryLE {R : Type} (a b : TrackEntry R) : Bool :=
  F32.ltB (entryTimeKey a) (entryTimeKey b)
    || (entryTimeKey a = entryTimeKey b
        && a.frame_time_slot_index ≤ b.frame_time_slot_index)

/-- Insert into a sorted list (ascending, stable for strict keys). -/
def insertSorted {α : Type} (le : α → α → Bool) (x : α) : List α → List α
  | [] => [x]
  | y :: ys => if le x y then x :: y :: ys else y :: insertSorted le x ys

/-- Insertion sort.  Python's `list.sort` is a stable sort; on the
decoder's tracks the sort key is strict (time-slot indices are distinct
within a track), so any correct sort produces the same list. -/
def sortByKey {α : Type} (le : α → α → Bool) : List α → List α
  | [] => []
  | x :: xs => insertSorted le x (sortByKey le xs)

/-- A bone's final track: grid-column scan then sort. -/
def trackOf {R : Type} (ar : QArith R) (keyframes : List (SkaKeyframe R))
    (keyframe_count : ℕ) (grid : List (List ℕ)) (rows bone_index : ℕ) :
    List (TrackEntry R) :=
  sortByKey entryLE (rawTrackOf ar keyframes keyframe_count grid rows bone_index)

/-! ## The decoder (source lines 38–205) -/

/-- Model of `parse_ska_file` over an in-memory byte buffer. -/
def parseSka {R : Type} (ar : QArith R) (d : List ℕ) :
    Except ParseError (ParsedSka R) :=
  let file_size : ℕ := d.length
  if file_size < 0x1C then Except.error ParseError.headerTooSmall
  else
    let bone_count : ℕ := readU16 d 8
    let time_count : ℕ := readU16 d 10
    let keyframe_count : ℕ := readU32 d 12
    let total : ℕ := totalExpectedSize d
    if file_size < total then
      Except.error (ParseError.layoutTooSmall total file_size)
    else
      let time_values := timeValuesOf d
      let keyframes := keyframesOf ar d
      let grid := keyOffsetGridOf d
      let rows : ℕ := offsetTimeSlotCount time_count
      Except.ok
        { header :=
            { magic := readU32 d 0
              flags := readU32 d 4
              bone_count := bone_count
              time_count := time_count
              keyframe_count := keyframe_count
              scale_values_xyz := (readF32 d 16, readF32 d 20, readF32 d 24)
              file_size_in_bytes := file_size }
          time_values := time_values
          bone_animation_tracks :=
            (List.range bone_count).map
              (trackOf ar keyframes keyframe_count grid rows) }

/-- Empty result used to totalize projections of the decoder. -/
def emptyParsed (R : Type) : ParsedSka R :=
  { header :=
      { magic := 0, flags := 0, bone_count := 0, time_count := 0
        keyframe_count := 0
        scale_values_xyz := (F32.nan, F32.nan, F32.nan)
        file_size_in_bytes := 0 }
    time_values := []
    bone_animation_tracks := [] }

/-- Total projection of the decoder's result. -/
def parseSkaD {R : Type} (ar : QArith R) (d : List ℕ) : ParsedSka R :=
  match parseSka ar d with
  | Except.ok p => p
  | Except.error _ => emptyParsed R

/-- Whether an `Except` is a success. -/
def exceptIsOk {ε α : Type} : Except ε α → Bool
  | Except.ok _ => true
  | Except.error _ => false

instance exceptDecEq {ε α : Type} [DecidableEq ε] [DecidableEq α] :
    DecidableEq (Except ε α) := fun x y =>
  match x, y with
  | Except.ok a, Except.ok b =>
    if h : a = b then Decidable.isTrue (by rw [h])
    else Decidable.isFalse (by simp [h])
  | Except.error a, Except.error b =>
    if h : a = b then Decidable.isTrue (by rw [h])
    else Decidable.isFalse (by simp [h])
  | Except.ok _, Except.error _ => Decidable.isFalse (by simp)
  | Except.error _, Except.ok _ => Decidable.isFalse (by simp)

/-! ## Skeleton model (external collaborator)

A Blender armature is abstracted as a list of bones; pose bones and data
(edit) bones mirror one another one-to-one, and bone names are unique, as
Blender guarantees.  `boneId` is the optional integer custom property
`"bone_id"` (a non-integer property counts as absent, matching the
`isinstance(..., int)` test).  `matrixLocal` is the bone's rest matrix in
armature space, `parent` the index of the parent bone, if any. -/

structure SkelBone (M : Type) : Type where
  name : String
  boneId : Option ℤ
  matrixLocal : M
  parent : Option ℕ
deriving DecidableEq, Repr

/-- Model of `build_bone_index_to_pose_bone_map` (source lines 226–250): collect
bones carrying an integer `bone_id` (later bones overwrite earlier ones
with the same id, as for a Python dict); if any were found use exactly
those, otherwise map every list position to the bone at that position. -/
def buildBoneMap {M : Type} (bones : List (SkelBone M)) : ℤ → Option ℕ :=
  let explicitMap : ℤ → Option ℕ :=
    bones.enum.foldl
      (fun m ib =>
        match ib.2.boneId with
        | some id => fun k => if k = id then some ib.1 else m k
        | none => m)
      (fun _ => none)
  let used_bone_ids : Bool := bones.any fun b => b.boneId.isSome
  if used_bone_ids then explicitMap
  else fun k => if 0 ≤ k ∧ k < bones.length then some k.toNat else none

/-! ## Host state

`apply_ska_to_armature` writes into its host: the scene frame range, the
pose-bone channels, the action store of keyframed curves, and the console.
The embedding passes this state explicitly. -/

/-- The keyframed curves of one action: `keyframe_insert` on
`rotation_quaternion` and on `location` appends `(bone name, frame,
current channel value)`. -/
structure ActionData (Q V : Type) : Type where
  rotKeys : List (String × ℕ × Q)
  locKeys : List (String × ℕ × V)
deriving DecidableEq, Repr

/-- One pose bone's mutable channels. -/
structure PoseChannel (Q V : Type) : Type where
  rotationMode : String
  rotation : Q
  location : V
deriving DecidableEq, Repr

/-- The host state touched by the retargeting pass. -/
structure HostState (Q V : Type) : Type where
  frameStart : ℕ
  frameEnd : ℕ
  actions : List (String × ActionData Q V)
  activeAction : Option String
  pose : List (PoseChannel Q V)
  console : List String
deriving DecidableEq, Repr

/-- The math operations of `mathutils` used by the retargeter, together
with the constant channel values of the pose reset.  `mkQuat w x y z`
models `Quaternion((w, x, y, z))`. -/
structure MathApi (R Q V M : Type) : Type where
  identityM : M
  matMul : M → M → M
  invertedSafe : M → M
  toQuaternion : M → Q
  rotationDifference : Q → Q → Q
  mkQuat : R → R → R → R → Q
  mkVec : R → R → R → V
  translationM : V → M
  toTranslation : M → V
  identityQuat : Q
  zeroVec : V

/-- The rotation mode the retargeter forces on every pose bone. -/
def quaternionMode : String := "QUATERNION"

/-- Model of `create_or_clear_action` (source lines 253–266): reuse and clear an
existing action of that name, else create one; make it active. -/
def createOrClearAction {Q V : Type} (st : HostState Q V) (action_name : String) :
    HostState Q V :=
  let cleared : List (String × ActionData Q V) :=
    if (st.actions.lookup action_name).isSome then
      st.actions.map fun na =>
        if na.1 = action_name then (na.1, ActionData.mk [] []) else na
    else st.actions ++ [(action_name, ActionData.mk [] [])]
  { st with actions := cleared, activeAction := some action_name }

/-- Append freshly inserted keyframes to the named action's curves. -/
def appendKeys {Q V : Type} (acts : List (String × ActionData Q V))
    (action_name bone_name : String) (rots : List (ℕ × Q)) (locs : List (ℕ × V)) :
    List (String × ActionData Q V) :=
  acts.map fun na =>
    if na.1 = action_name then
      (na.1,
        { rotKeys := na.2.rotKeys ++ rots.map fun fr => (bone_name, fr.1, fr.2)
          locKeys := na.2.locKeys ++ locs.map fun fv => (bone_name, fv.1, fv.2) })
    else na

/-- Model of `entries_by_time_slot_index` (source lines 322–327): a dictionary
from time-slot index to track entry; later entries overwrite earlier
ones. -/
def entriesBySlot {R : Type} (bone_track : List (TrackEntry R)) :
    ℕ → Option (TrackEntry R) :=
  bone_track.foldl
    (fun m e => fun s => if s = e.frame_time_slot_index then some e else m s)
    (fun _ => none)

/-- Value of `max(entries_by_time_slot_index.keys())` over a nonempty track. -/
def maxSlot {R : Type} (bone_track : List (TrackEntry R)) : ℕ :=
  bone_track.foldl (fun a e => max a e.frame_time_slot_index) 0

/-- Model of `local_time_count` (source lines 332–334): the header's time count,
or — when it is unusable and the bone has entries — one past the highest
populated slot. -/
def localTimeCount {R : Type} (bone_track : List (TrackEntry R)) (time_count : ℕ) :
    ℕ :=
  if time_count = 0 && !bone_track.isEmpty then maxSlot bone_track + 1
  else time_count

/-- Accumulator of the per-bone sampling loop. -/
structure SampleAcc (Q V : Type) : Type where
  lastRot : Option Q
  lastTrans : Option V
  rots : List (ℕ × Q)
  locs : List (ℕ × V)

/-- One iteration of the sampling loop (source lines 336–377) at
`time_slot_index`: take the held values, recompute them if the slot has a
track entry, skip emission when both channels are still unknown,
otherwise emit each known channel at `frame_offset + time_slot_index`. -/
def sampleStep {R Q V M : Type} (api : MathApi R Q V M)
    (local_rest_rotation : Q) (rest_matrix parent_rest_matrix : M)
    (entries : ℕ → Option (TrackEntry R)) (frame_offset : ℕ)
    (acc : SampleAcc Q V) (time_slot_index : ℕ) : SampleAcc Q V :=
  let frame_number := frame_offset + time_slot_index
  let track_entry := entries time_slot_index
  let rotPair : Option Q × Option Q :=
    match track_entry with
    | some e =>
      match e.quaternion with
      | some q =>
        let game := api.mkQuat q.2.2.2 q.1 q.2.1 q.2.2.1
        let r := api.rotationDifference local_rest_rotation game
        (some r, some r)
      | none => (acc.lastRot, acc.lastRot)
    | none => (acc.lastRot, acc.lastRot)
  let transPair : Option V × Option V :=
    match track_entry with
    | some e =>
      match e.translation with
      | some t =>
        let game := api.mkVec t.1 t.2.1 t.2.2
        let basis := api.matMul (api.invertedSafe rest_matrix)
          (api.matMul parent_rest_matrix (api.translationM game))
        let v := api.toTranslation basis
        (some v, some v)
      | none => (acc.lastTrans, acc.lastTrans)
    | none => (acc.lastTrans, acc.lastTrans)
  let rotation_quaternion := rotPair.1
  let translation_vector := transPair.1
  let acc' : SampleAcc Q V :=
    { acc with lastRot := rotPair.2, lastTrans := transPair.2 }
  if rotation_quaternion.isNone && translation_vector.isNone then acc'
  else
    { acc' with
      rots :=
        match rotation_quaternion with
        | some r => acc'.rots ++ [(frame_number, r)]
        | none => acc'.rots
      locs :=
        match translation_vector with
        | some v => acc'.locs ++ [(frame_number, v)]
        | none => acc'.locs }

/-- The whole per-bone sampling loop: emitted rotation and location
keyframes, in frame order. -/
def sampleBone {R Q V M : Type} (api : MathApi R Q V M)
    (local_rest_rotation : Q) (rest_matrix parent_rest_matrix : M)
    (frame_offset : ℕ) (bone_track : List (TrackEntry R)) (time_count : ℕ) :
    List (ℕ × Q) × List (ℕ × V) :=
  let entries := entriesBySlot bone_track
  let acc :=
    (List.range (localTimeCount bone_track time_count)).foldl
      (sampleStep api local_rest_rotation rest_matrix parent_rest_matrix entries
        frame_offset)
      { lastRot := none, lastTrans := none, rots := [], locs := [] }
  (acc.rots, acc.locs)

/-- Model of the mapping-mode diagnostic printed by
`build_bone_index_to_pose_bone_map` (source lines 242–246): one of the two
messages is printed on every call, according to whether any bone carried
an integer bone_id. -/
def boneMapModeMessage {M : Type} (bones : List (SkelBone M)) : String :=
  if bones.any fun b => b.boneId.isSome then
    "Using edit bone 'bone_id' properties for SKA bone mapping."
  else
    "No 'bone_id' properties found. Falling back to pose bone list order."

/-- One iteration of the per-bone loop of `apply_ska_to_armature` (source
lines 301–377): skip unmapped bone indices with a console notice,
otherwise derive the bone's rest data, sample its track and write the row
of keyframes (plus the final pose-channel values) into the host state. -/
def applyBoneStep {R Q V M : Type} (api : MathApi R Q V M)
    (boneMap : ℤ → Option ℕ) (bones : List (SkelBone M))
    (action_name : String) (time_count : ℕ) (frame_offset : ℕ)
    (st : HostState Q V) (bt : ℕ × List (TrackEntry R)) : HostState Q V :=
  let bone_index := bt.1
  let bone_track := bt.2
  match boneMap (bone_index : ℤ) with
  | none =>
    { st with
      console := st.console ++
        ["Skipping SKA bone index " ++ toString bone_index ++
          ": no matching pose bone found."] }
  | some idx =>
    match bones[idx]? with
    | none => st
    | some b =>
      let rest_matrix := b.matrixLocal
      let pr : M × Q :=
        match b.parent with
        | some pIdx =>
          match bones[pIdx]? with
          | some pb =>
            (pb.matrixLocal,
              api.toQuaternion
                (api.matMul (api.invertedSafe pb.matrixLocal) rest_matrix))
          | none => (api.identityM, api.toQuaternion rest_matrix)
        | none => (api.identityM, api.toQuaternion rest_matrix)
      let parent_rest_matrix := pr.1
      let local_rest_rotation := pr.2
      let rl :=
        sampleBone api local_rest_rotation rest_matrix parent_rest_matrix
          frame_offset bone_track time_count
      let pose' :=
        st.pose.mapIdx fun i c =>
          if i = idx then
            { c with
              rotationMode := quaternionMode
              rotation := ((rl.1.getLast?).map Prod.snd).getD c.rotation
              location := ((rl.2.getLast?).map Prod.snd).getD c.location }
          else c
      { st with
        actions := appendKeys st.actions action_name b.name rl.1 rl.2
        pose := pose' }

/-- Model of `apply_ska_to_armature` (source lines 277–380) as a host-state
transformation: build the bone map (whose helper prints the mapping-mode
notice), create/clear and activate the action, reset every pose bone, set
the scene frame range when the time count is positive, sample and keyframe
each mapped bone's track, then print the two final summary lines
(source lines 379–380).  `armature_name` is the host armature object's
name, interpolated into the first summary line. -/
def applySka {R Q V M : Type} (api : MathApi R Q V M) (parsed : ParsedSka R)
    (armature_name : String) (bones : List (SkelBone M))
    (action_name : String) (st : HostState Q V) : HostState Q V :=
  let time_count := parsed.header.time_count
  let boneMap := buildBoneMap bones
  let st := { st with console := st.console ++ [boneMapModeMessage bones] }
  let st := createOrClearAction st action_name
  let st :=
    { st with
      pose := bones.map fun _ =>
        PoseChannel.mk quaternionMode api.identityQuat api.zeroVec }
  let frame_offset : ℕ := 1
  let st :=
    if 0 < time_count then
      { st with frameStart := frame_offset
                frameEnd := frame_offset + time_count - 1 }
    else st
  let st :=
    parsed.bone_animation_tracks.enum.foldl
      (applyBoneStep api boneMap bones action_name time_count frame_offset) st
  { st with
    console := st.console ++
      ["Scooby Animation Importer: finished applying SKA animation to '"
          ++ armature_name ++ "'.",
        "Action created/updated: '" ++ action_name ++ "'."] }

/-- Rotation curve lookup: the value keyed at `frame` for `bone_name`
in the action's rotation curve, if any. -/
def rotSampleAt {Q : Type} (rotKeys : List (String × ℕ × Q))
    (bone_name : String) (frame : ℕ) : Option Q :=
  (rotKeys.find? fun k => k.1 = bone_name && k.2.1 = frame).map fun k => k.2.2

/-- Location curve lookup. -/
def locSampleAt {V : Type} (locKeys : List (String × ℕ × V))
    (bone_name : String) (frame : ℕ) : Option V :=
  (locKeys.find? fun k => k.1 = bone_name && k.2.1 = frame).map fun k => k.2.2

/-! ## Specification shadows of the sampling loop

`heldRot`/`heldTrans` give the value of `last_rotation_quaternion` /
`last_translation_vector` after the loop has processed all slots below a
bound; they let the emitted curves be described per-slot. -/

def heldRot {R Q V M : Type} (api : MathApi R Q V M) (local_rest_rotation : Q)
    (entries : ℕ → Option (TrackEntry R)) : ℕ → Option Q
  | 0 => none
  | n + 1 =>
    match entries n with
    | some e =>
      match e.quaternion with
      | some q =>
        some (api.rotationDifference local_rest_rotation
          (api.mkQuat q.2.2.2 q.1 q.2.1 q.2.2.1))
      | none => heldRot api local_rest_rotation entries n
    | none => heldRot api local_rest_rotation entries n

def heldTrans {R Q V M : Type} (api : MathApi R Q V M)
    (rest_matrix parent_rest_matrix : M) (entries : ℕ → Option (TrackEntry R)) :
    ℕ → Option V
  | 0 => none
  | n + 1 =>
    match entries n with
    | some e =>
      match e.translation with
      | some t =>
        some (api.toTranslation (api.matMul (api.invertedSafe rest_matrix)
          (api.matMul parent_rest_matrix (api.translationM (api.mkVec t.1 t.2.1 t.2.2)))))
      | none => heldTrans api rest_matrix parent_rest_matrix entries n
    | none => heldTrans api rest_matrix parent_rest_matrix entries n

/-! ## Claim-side predicates -/

/-- Executable pairwise check over a list. -/
def pairwiseB {α : Type} (p : α → α → Bool) : List α → Bool
  | [] => true
  | x :: xs => xs.all (p x) && pairwiseB p xs

/-- "Entries whose time could not be resolved are placed after all
resolved entries": no entry with an absent time is followed by an entry
with a resolved time (C3's ordering requirement). -/
def absentEntriesLast {R : Type} (track : List (TrackEntry R)) : Prop :=
  pairwiseB
    (fun a b => !(a.absolute_time_value.isNone && b.absolute_time_value.isSome))
    track = true

/-- "Absent after all finitely-resolved entries": the (weaker) ordering
property the code actually guarantees. -/
def absentAfterFinite {R : Type} (track : List (TrackEntry R)) : Prop :=
  track.Pairwise fun a b =>
    ¬(a.absolute_time_value = none ∧ (∃ q, b.absolute_time_value = some (F32.finite q)))

/-- Update the recorded file size of a decoded result (C10: the only
field in which a padded buffer's decode differs from its exact prefix's
decode). -/
def setFileSize {R : Type} (p : ParsedSka R) (n : ℕ) : ParsedSka R :=
  { p with header := { p.header with file_size_in_bytes := n } }

/-- The curves stored for an action name in the host state. -/
def lookupAction {Q V : Type} (st : HostState Q V) (action_name : String) :
    Option (ActionData Q V) :=
  st.actions.lookup action_name

/-- The frames of the rotation curve recorded for an action. -/
def rotFrames {Q V : Type} (st : HostState Q V) (action_name : String) : List ℕ :=
  ((lookupAction st action_name).getD (ActionData.mk [] [])).rotKeys.map
    fun k => k.2.1

/-- The frames of the location curve recorded for an action. -/
def locFrames {Q V : Type} (st : HostState Q V) (action_name : String) : List ℕ :=
  ((lookupAction st action_name).getD (ActionData.mk [] [])).locKeys.map
    fun k => k.2.1

/-! ## Concrete test fixtures

The scenario of spec §8 / claim C5: bone_count=1, time_count=2,
keyframe_count=1, scale=(1,1,1), time table [0.0, 0.5], one keyframe at
time_index=1 with raw quaternion (0,0,0,32767) and raw translation
(10,0,0), grid [[0]]. -/

def scenarioBytes : List ℕ :=
  [0, 0, 0, 0,
   0, 0, 0, 0,
   0, 1,
   0, 2,
   0, 0, 0, 1,
   63, 128, 0, 0,
   63, 128, 0, 0,
   63, 128, 0, 0,
   0, 1, 0, 0, 0, 0, 0, 0, 127, 255, 0, 10, 0, 0, 0, 0,
   0, 0, 0, 0,
   63, 0, 0, 0,
   0, 0]

/-- A file whose time table starts with +inf (bit pattern 0x7F800000):
bone_count=1, time_count=3, keyframe_count=2; keyframe 0 resolves to the
infinite time value, keyframe 1 has time_index 500 (out of range, so its
time is absent); the grid sends slot 0 to keyframe 1 and slot 1 to
keyframe 0. -/
def infTimeBytes : List ℕ :=
  [0, 0, 0, 0,
   0, 0, 0, 0,
   0, 1,
   0, 3,
   0, 0, 0, 2,
   63, 128, 0, 0,
   63, 128, 0, 0,
   63, 128, 0, 0,
   0, 0, 0, 0, 0, 0, 0, 0, 127, 255, 0, 0, 0, 0, 0, 0,
   1, 244, 0, 0, 0, 0, 0, 0, 127, 255, 0, 0, 0, 0, 0, 0,
   127, 128, 0, 0,
   0, 0, 0, 0,
   0, 0, 0, 0,
   0, 1,
   0, 0]

/-- A 10-byte buffer: shorter than the 28-byte header. -/
def shortBytes : List ℕ := [0, 0, 0, 0, 0, 0, 0, 0, 0, 0]

/-- The scenario buffer with one trailing byte appended. -/
def paddedScenarioBytes : List ℕ := scenarioBytes ++ [0]

/-- Executable test carrier for the abstract arithmetic: exact rational
arithmetic with a stub square root (structural claims never inspect the
values this carrier produces). -/
def ratAr : QArith ℚ :=
  { ofRat := id
    add := (· + ·)
    mul := (· * ·)
    div := (· / ·)
    sqrt := id
    ltB := fun a b => decide (a < b) }

/-- Executable test instantiation of the math API (the structural claims
hold for every instantiation; this one lets witnesses evaluate). -/
def natApi : MathApi ℚ ℕ ℕ ℕ :=
  { identityM := 0
    matMul := (· + ·)
    invertedSafe := id
    toQuaternion := id
    rotationDifference := fun a b => a + b
    mkQuat := fun _ _ _ _ => 5
    mkVec := fun _ _ _ => 3
    translationM := id
    toTranslation := id
    identityQuat := 1
    zeroVec := 0 }

/-- Name of the single root bone of the scenario skeleton. -/
def rootBoneName : String := "root"

/-- Name of the action written by the scenario runs. -/
def testActionName : String := "anim_from_ska"

/-- A single-root skeleton with identity rest pose over any matrix
carrier. -/
def singleRootSkelM {M : Type} (m : M) : List (SkelBone M) :=
  [{ name := rootBoneName, boneId := none, matrixLocal := m, parent := none }]

/-- A fresh host state (empty action store, cleared frame range). -/
def emptyHost (Q V : Type) : HostState Q V :=
  { frameStart := 0, frameEnd := 0, actions := [], activeAction := none
    pose := [], console := [] }

/-- A single-root skeleton with identity rest pose (for `natApi`). -/
def singleRootSkel : List (SkelBone ℕ) :=
  [{ name := rootBoneName, boneId := none, matrixLocal := natApi.identityM
     parent := none }]

/-- Bone name used by the mapping fixtures. -/
def childBoneName : String := "child"

/-- Two-bone skeleton with no explicit bone ids (positional fallback). -/
def skelNoIds : List (SkelBone Unit) :=
  [{ name := rootBoneName, boneId := none, matrixLocal := (), parent := none },
   { name := childBoneName, boneId := none, matrixLocal := (), parent := some 0 }]

/-- Two-bone skeleton where the first bone carries the explicit id 7. -/
def skelWithId : List (SkelBone Unit) :=
  [{ name := rootBoneName, boneId := some 7, matrixLocal := (), parent := none },
   { name := childBoneName, boneId := none, matrixLocal := (), parent := some 0 }]

/-- An initial host state with a recognizable frame range and no actions. -/
def initialHost : HostState ℕ ℕ :=
  { frameStart := 7, frameEnd := 250, actions := [], activeAction := none
    pose := [], console := [] }

/-- Name of the host armature object in the concrete scenario runs. -/
def armatureName : String := "Armature"

/-- The host state after retargeting the scenario file onto the
single-root skeleton (with the executable carriers). -/
def scenarioResult : HostState ℕ ℕ :=
  applySka natApi (parseSkaD ratAr scenarioBytes) armatureName singleRootSkel
    testActionName initialHost

/-! # Theorems

## Prefix lemmas: every decoder read stays inside the validated layout -/

theorem byteAt_take (d : List ℕ) (n i : ℕ) (h : i < n) :
    byteAt (d.take n) i = byteAt d i := by
  simp [byteAt, List.getD_eq_getElem?_getD, List.getElem?_take, h]

theorem readU16_take (d : List ℕ) (n off : ℕ) (h : off + 2 ≤ n) :
    readU16 (d.take n) off = readU16 d off := by
  unfold readU16
  rw [byteAt_take d n off (by omega), byteAt_take d n (off + 1) (by omega)]

theorem readU32_take (d : List ℕ) (n off : ℕ) (h : off + 4 ≤ n) :
    readU32 (d.take n) off = readU32 d off := by
  unfold readU32
  rw [byteAt_take d n off (by omega), byteAt_take d n (off + 1) (by omega),
    byteAt_take d n (off + 2) (by omega), byteAt_take d n (off + 3) (by omega)]

theorem readI16_take (d : List ℕ) (n off : ℕ) (h : off + 2 ≤ n) :
    readI16 (d.take n) off = readI16 d off := by
  unfold readI16
  rw [readU16_take d n off h]

theorem readF32_take (d : List ℕ) (n off : ℕ) (h : off + 4 ≤ n) :
    readF32 (d.take n) off = readF32 d off := by
  unfold readF32
  rw [readU32_take d n off h]

theorem totalExpectedSize_take (d : List ℕ) (n : ℕ) (h : 28 ≤ n) :
    totalExpectedSize (d.take n) = totalExpectedSize d := by
  unfold totalExpectedSize
  rw [readU32_take d n 12 (by omega), readU16_take d n 10 (by omega),
    readU16_take d n 8 (by omega)]

theorem totalExpectedSize_ge_header (d : List ℕ) : 28 ≤ totalExpectedSize d := by
  unfold totalExpectedSize keyOffsetsStart timeValuesStart
  omega

/-! ## Success/failure characterization of the decoder -/

theorem parseSka_error_iff {R : Type} (ar : QArith R) (d : List ℕ) (e : ParseError) :
    parseSka ar d = Except.error e ↔
      (d.length < 28 ∧ e = ParseError.headerTooSmall) ∨
        (28 ≤ d.length ∧ d.length < totalExpectedSize d ∧
          e = ParseError.layoutTooSmall (totalExpectedSize d) d.length) := by
  unfold parseSka
  by_cases h1 : d.length < 28
  · rw [if_pos h1]
    constructor
    · intro h
      exact Or.inl ⟨h1, (Except.error.injEq _ _).mp h |>.symm⟩
    · rintro (⟨_, he⟩ | ⟨h2, _, _⟩)
      · rw [he]
      · omega
  · rw [if_neg h1]
    by_cases h2 : d.length < totalExpectedSize d
    · rw [if_pos h2]
      constructor
      · intro h
        exact Or.inr ⟨by omega, h2, ((Except.error.injEq _ _).mp h).symm⟩
      · rintro (⟨h3, _⟩ | ⟨_, _, he⟩)
        · omega
        · rw [he]
    · rw [if_neg h2]
      constructor
      · intro h
        exact absurd h (by simp)
      · rintro (⟨h3, _⟩ | ⟨_, h3, _⟩) <;> omega

theorem parseSka_ok_eq {R : Type} (ar : QArith R) (d : List ℕ)
    (h1 : 28 ≤ d.length) (h2 : totalExpectedSize d ≤ d.length) :
    parseSka ar d = Except.ok
      { header :=
          { magic := readU32 d 0
            flags := readU32 d 4
            bone_count := readU16 d 8
            time_count := readU16 d 10
            keyframe_count := readU32 d 12
            scale_values_xyz := (readF32 d 16, readF32 d 20, readF32 d 24)
            file_size_in_bytes := d.length }
        time_values := timeValuesOf d
        bone_animation_tracks :=
          (List.range (readU16 d 8)).map
            (trackOf ar (keyframesOf ar d) (readU32 d 12) (keyOffsetGridOf d)
              (offsetTimeSlotCount (readU16 d 10))) } := by
  unfold parseSka
  rw [if_neg (by omega), if_neg (by omega)]

theorem parseSka_ok_iff {R : Type} (ar : QArith R) (d : List ℕ) :
    exceptIsOk (parseSka ar d) = true ↔
      28 ≤ d.length ∧ totalExpectedSize d ≤ d.length := by
  constructor
  · intro h
    by_contra hc
    rcases Nat.lt_or_ge d.length 28 with h1 | h1
    · rw [(parseSka_error_iff ar d ParseError.headerTooSmall).mpr
        (Or.inl ⟨h1, rfl⟩)] at h
      exact absurd h (by simp [exceptIsOk])
    · have h2 : d.length < totalExpectedSize d := by omega
      rw [(parseSka_error_iff ar d
          (ParseError.layoutTooSmall (totalExpectedSize d) d.length)).mpr
        (Or.inr ⟨h1, h2, rfl⟩)] at h
      exact absurd h (by simp [exceptIsOk])
  · intro ⟨h1, h2⟩
    rw [parseSka_ok_eq ar d h1 h2]
    rfl

/-! ## Claim C1 -/

/-- C1: for every header with bone_count=B, time_count=T, keyframe_count=K,
decoding a buffer of exactly `28 + 16K + 4T + 2·max(T−1,0)·B` bytes
succeeds, and decoding the buffer one byte shorter fails with a size
error. -/
theorem claim_C1_exact_size {R : Type} (ar : QArith R) (d : List ℕ)
    (h : d.length = totalExpectedSize d) :
    exceptIsOk (parseSka ar d) = true ∧
      ∃ e : ParseError, parseSka ar d.dropLast = Except.error e := by
  have h28 : 28 ≤ totalExpectedSize d := totalExpectedSize_ge_header d
  refine ⟨(parseSka_ok_iff ar d).mpr ⟨by omega, by omega⟩, ?_⟩
  have hlen : d.dropLast.length = d.length - 1 := List.length_dropLast d
  by_cases hc : totalExpectedSize d = 28
  · exact ⟨ParseError.headerTooSmall,
      (parseSka_error_iff ar d.dropLast ParseError.headerTooSmall).mpr
        (Or.inl ⟨by omega, rfl⟩)⟩
  · have h29 : 29 ≤ d.length := by omega
    have htake : totalExpectedSize d.dropLast = totalExpectedSize d := by
      rw [List.dropLast_eq_take]
      exact totalExpectedSize_take d (d.length - 1) (by omega)
    refine ⟨ParseError.layoutTooSmall (totalExpectedSize d.dropLast)
      d.dropLast.length,
      (parseSka_error_iff ar d.dropLast _).mpr (Or.inr ⟨by omega, ?_, rfl⟩)⟩
    omega

/-- Witness for C1 at the concrete §8 scenario buffer (54 = 28 + 16 + 8 + 2
bytes). -/
theorem claim_C1_witness :
    exceptIsOk (parseSka ratAr scenarioBytes) = true ∧
      ∃ e : ParseError, parseSka ratAr scenarioBytes.dropLast = Except.error e :=
  claim_C1_exact_size ratAr scenarioBytes (by decide)

/-! ## Claim C8 (corrected) -/

/-- C8 counterexample: a 10-byte buffer fails the header-size check, and
the resulting error is the fixed header message, which carries no byte
counts at all (its text contains no digit), contradicting the claim that
every size failure reports the required and actual byte counts. -/
theorem claim_C8_counterexample :
    parseSka ratAr shortBytes = Except.error ParseError.headerTooSmall ∧
      ParseError.headerTooSmall.message.toList.any Char.isDigit = false := by
  constructor
  · decide
  · decide

/-- C8 as amended: a failure on a buffer of at least 28 bytes is the
layout error, which carries and reports both the required and the actual
byte counts; a failure on a shorter buffer is the header error, whose
message is fixed text without byte counts. -/
theorem claim_C8_size_error_reporting {R : Type} (ar : QArith R) (d : List ℕ)
    (e : ParseError) (h : parseSka ar d = Except.error e) :
    (28 ≤ d.length →
      e = ParseError.layoutTooSmall (totalExpectedSize d) d.length ∧
        e.message = "File too small for expected SKA layout. Need "
          ++ toString (totalExpectedSize d) ++ " bytes, have "
          ++ toString d.length ++ " bytes.") ∧
    (d.length < 28 →
      e = ParseError.headerTooSmall ∧
        e.message = "File is too small to contain a valid SKA/SKB header.") := by
  rw [parseSka_error_iff] at h
  rcases h with ⟨h1, he⟩ | ⟨h1, _, he⟩ <;> subst he
  · exact ⟨fun hx => absurd hx (by omega), fun _ => ⟨rfl, rfl⟩⟩
  · exact ⟨fun _ => ⟨rfl, rfl⟩, fun hx => absurd hx (by omega)⟩

/-- Witness for the amended C8 at the 10-byte buffer. -/
theorem claim_C8_witness :
    ParseError.headerTooSmall = ParseError.headerTooSmall ∧
      ParseError.headerTooSmall.message =
        "File is too small to contain a valid SKA/SKB header." :=
  (claim_C8_size_error_reporting ratAr shortBytes ParseError.headerTooSmall
    (by decide)).2 (by decide)

/-! ## Claim C10 (corrected) -/

theorem timeValuesOf_take (d : List ℕ) (n : ℕ)
    (h : totalExpectedSize d ≤ n) :
    timeValuesOf (d.take n) = timeValuesOf d := by
  have h28 : 28 ≤ n := le_trans (totalExpectedSize_ge_header d) h
  have hko : keyOffsetsStart (readU32 d 12) (readU16 d 10) ≤ n :=
    le_trans (Nat.le_add_right _ _) h
  unfold keyOffsetsStart timeValuesStart at hko
  unfold timeValuesOf
  rw [readU16_take d n 10 (by omega), readU32_take d n 12 (by omega)]
  apply List.map_congr_left
  intro i hi
  rw [List.mem_range] at hi
  apply readF32_take
  unfold timeValuesStart
  omega

theorem keyframesOf_take {R : Type} (ar : QArith R) (d : List ℕ) (n : ℕ)
    (h : totalExpectedSize d ≤ n) :
    keyframesOf ar (d.take n) = keyframesOf ar d := by
  have h28 : 28 ≤ n := le_trans (totalExpectedSize_ge_header d) h
  have hko : keyOffsetsStart (readU32 d 12) (readU16 d 10) ≤ n :=
    le_trans (Nat.le_add_right _ _) h
  unfold keyOffsetsStart timeValuesStart at hko
  unfold keyframesOf
  rw [readU32_take d n 12 (by omega), readF32_take d n 16 (by omega),
    readF32_take d n 20 (by omega), readF32_take d n 24 (by omega),
    timeValuesOf_take d n h]
  apply List.map_congr_left
  intro i hi
  rw [List.mem_range] at hi
  simp only [keyframeAt]
  rw [readU16_take d n (0x1C + i * 16) (by omega),
    readI16_take d n (0x1C + i * 16 + 2) (by omega),
    readI16_take d n (0x1C + i * 16 + 4) (by omega),
    readI16_take d n (0x1C + i * 16 + 6) (by omega),
    readI16_take d n (0x1C + i * 16 + 8) (by omega),
    readI16_take d n (0x1C + i * 16 + 10) (by omega),
    readI16_take d n (0x1C + i * 16 + 12) (by omega),
    readI16_take d n (0x1C + i * 16 + 14) (by omega)]

theorem keyOffsetGridOf_take (d : List ℕ) (n : ℕ)
    (h : totalExpectedSize d ≤ n) :
    keyOffsetGridOf (d.take n) = keyOffsetGridOf d := by
  have h28 : 28 ≤ n := le_trans (totalExpectedSize_ge_header d) h
  unfold keyOffsetGridOf
  rw [readU16_take d n 8 (by omega), readU16_take d n 10 (by omega),
    readU32_take d n 12 (by omega)]
  apply List.map_congr_left
  intro r hr
  apply List.map_congr_left
  intro b hb
  rw [List.mem_range] at hr hb
  apply readU16_take
  have hmul : r * readU16 d 8 * 2 + b * 2 + 2 ≤
      offsetTimeSlotCount (readU16 d 10) * readU16 d 8 * 2 := by
    calc r * readU16 d 8 * 2 + b * 2 + 2
        ≤ r * readU16 d 8 * 2 + readU16 d 8 * 2 := by omega
      _ = (r + 1) * readU16 d 8 * 2 := by ring
      _ ≤ offsetTimeSlotCount (readU16 d 10) * readU16 d 8 * 2 :=
          Nat.mul_le_mul_right 2 (Nat.mul_le_mul_right _ (by omega))
  unfold totalExpectedSize at h
  omega

/-- C10 counterexample: the scenario buffer with one trailing byte decodes
successfully, but its decoded result records file_size_in_bytes = 55 where
the exact-size prefix records 54, so the two results are not equal. -/
theorem claim_C10_counterexample :
    (parseSkaD ratAr paddedScenarioBytes).header.file_size_in_bytes = 55 ∧
      (parseSkaD ratAr scenarioBytes).header.file_size_in_bytes = 54 ∧
      parseSkaD ratAr paddedScenarioBytes ≠ parseSkaD ratAr scenarioBytes := by
  refine ⟨by decide, by decide, fun hc => ?_⟩
  have h55 : (parseSkaD ratAr paddedScenarioBytes).header.file_size_in_bytes = 55 :=
    by decide
  rw [hc] at h55
  have h54 : (parseSkaD ratAr scenarioBytes).header.file_size_in_bytes = 54 :=
    by decide
  omega

/-- C10 as amended: any buffer at least as long as the expected layout
decodes successfully, trailing bytes are never read, and the result equals
the decode of the exact-size prefix in every component except the recorded
file_size_in_bytes, which reports the whole buffer's length. -/
theorem claim_C10_trailing_bytes {R : Type} (ar : QArith R) (d : List ℕ)
    (h1 : 28 ≤ d.length) (h2 : totalExpectedSize d ≤ d.length) :
    exceptIsOk (parseSka ar d) = true ∧
      parseSkaD ar d =
        setFileSize (parseSkaD ar (d.take (totalExpectedSize d))) d.length := by
  have h28 : 28 ≤ totalExpectedSize d := totalExpectedSize_ge_header d
  have hlen : (d.take (totalExpectedSize d)).length = totalExpectedSize d := by
    rw [List.length_take]
    omega
  have htot : totalExpectedSize (d.take (totalExpectedSize d)) =
      totalExpectedSize d :=
    totalExpectedSize_take d (totalExpectedSize d) h28
  refine ⟨(parseSka_ok_iff ar d).mpr ⟨h1, h2⟩, ?_⟩
  unfold parseSkaD
  rw [parseSka_ok_eq ar d h1 h2,
    parseSka_ok_eq ar (d.take (totalExpectedSize d)) (by omega) (by omega)]
  unfold setFileSize
  rw [readU32_take d (totalExpectedSize d) 0 (by omega),
    readU32_take d (totalExpectedSize d) 4 (by omega),
    readU16_take d (totalExpectedSize d) 8 (by omega),
    readU16_take d (totalExpectedSize d) 10 (by omega),
    readU32_take d (totalExpectedSize d) 12 (by omega),
    readF32_take d (totalExpectedSize d) 16 (by omega),
    readF32_take d (totalExpectedSize d) 20 (by omega),
    readF32_take d (totalExpectedSize d) 24 (by omega),
    timeValuesOf_take d (totalExpectedSize d) (by omega),
    keyframesOf_take ar d (totalExpectedSize d) (by omega),
    keyOffsetGridOf_take d (totalExpectedSize d) (by omega)]

/-- Witness for the amended C10 at the padded scenario buffer. -/
theorem claim_C10_witness :
    exceptIsOk (parseSka ratAr paddedScenarioBytes) = true ∧
      parseSkaD ratAr paddedScenarioBytes =
        setFileSize
          (parseSkaD ratAr (paddedScenarioBytes.take
            (totalExpectedSize paddedScenarioBytes)))
          paddedScenarioBytes.length :=
  claim_C10_trailing_bytes ratAr paddedScenarioBytes (by decide) (by decide)

/-! ## Order facts for the track sort -/

theorem F32.ltB_trans : ∀ x y z : F32,
    F32.ltB x y = true → F32.ltB y z = true → F32.ltB x z = true := by
  intro x y z
  cases x <;> cases y <;> cases z <;> simp [F32.ltB]
  intro h1 h2
  exact lt_trans h1 h2

theorem F32.ltB_trichotomy : ∀ x y : F32,
    F32.ltB x y = true ∨ x = y ∨ F32.ltB y x = true := by
  intro x y
  cases x <;> cases y <;> simp [F32.ltB]
  exact lt_trichotomy _ _

theorem F32.ltB_irrefl : ∀ x : F32, F32.ltB x x = false := by
  intro x
  cases x <;> simp [F32.ltB]

theorem entryLE_total {R : Type} (a b : TrackEntry R) :
    entryLE a b = true ∨ entryLE b a = true := by
  unfold entryLE
  rcases F32.ltB_trichotomy (entryTimeKey a) (entryTimeKey b) with h | h | h
  · left
    simp [h]
  · rcases Nat.le_total a.frame_time_slot_index b.frame_time_slot_index with
      hs | hs
    · left
      simp [h, hs]
    · right
      simp [h, hs]
  · right
    simp [h]

theorem entryLE_trans {R : Type} (a b c : TrackEntry R) :
    entryLE a b = true → entryLE b c = true → entryLE a c = true := by
  unfold entryLE
  intro hab hbc
  rcases Bool.or_eq_true_iff.mp hab with h1 | h1 <;>
    rcases Bool.or_eq_true_iff.mp hbc with h2 | h2
  · simp [F32.ltB_trans _ _ _ h1 h2]
  · rcases Bool.and_eq_true_iff.mp h2 with ⟨he, _⟩
    have he' : entryTimeKey b = entryTimeKey c := of_decide_eq_true he
    rw [← he']
    simp [h1]
  · rcases Bool.and_eq_true_iff.mp h1 with ⟨he, _⟩
    have he' : entryTimeKey a = entryTimeKey b := of_decide_eq_true he
    rw [he']
    simp [h2]
  · rcases Bool.and_eq_true_iff.mp h1 with ⟨he1, hs1⟩
    rcases Bool.and_eq_true_iff.mp h2 with ⟨he2, hs2⟩
    have he1' : entryTimeKey a = entryTimeKey b := of_decide_eq_true he1
    have he2' : entryTimeKey b = entryTimeKey c := of_decide_eq_true he2
    have hs1' := of_decide_eq_true hs1
    have hs2' := of_decide_eq_true hs2
    rw [he1', he2']
    simp
    omega

/-! ## Correctness of the sorting pass -/

theorem mem_insertSorted {α : Type} (le : α → α → Bool) (x : α) (l : List α)
    (a : α) : a ∈ insertSorted le x l ↔ a = x ∨ a ∈ l := by
  induction l with
  | nil => simp [insertSorted]
  | cons y ys ih =>
    unfold insertSorted
    by_cases hxy : le x y = true
    · simp [hxy]
    · simp [hxy, ih]
      tauto

theorem insertSorted_perm {α : Type} (le : α → α → Bool) (x : α) (l : List α) :
    (insertSorted le x l).Perm (x :: l) := by
  induction l with
  | nil => exact List.Perm.refl _
  | cons y ys ih =>
    unfold insertSorted
    by_cases hxy : le x y = true
    · rw [if_pos hxy]
    · rw [if_neg hxy]
      exact (ih.cons y).trans (List.Perm.swap x y ys)

theorem sortByKey_perm {α : Type} (le : α → α → Bool) (l : List α) :
    (sortByKey le l).Perm l := by
  induction l with
  | nil => exact List.Perm.refl _
  | cons x xs ih =>
    unfold sortByKey
    exact (insertSorted_perm le x (sortByKey le xs)).trans (ih.cons x)

theorem insertSorted_pairwise {α : Type} (le : α → α → Bool)
    (htot : ∀ a b : α, le a b = true ∨ le b a = true)
    (htrans : ∀ a b c : α, le a b = true → le b c = true → le a c = true)
    (x : α) (l : List α) (h : l.Pairwise fun a b => le a b = true) :
    (insertSorted le x l).Pairwise fun a b => le a b = true := by
  induction l with
  | nil => exact List.pairwise_singleton _ x
  | cons y ys ih =>
    rcases List.pairwise_cons.mp h with ⟨hy, hys⟩
    unfold insertSorted
    by_cases hxy : le x y = true
    · rw [if_pos hxy]
      refine List.pairwise_cons.mpr ⟨?_, h⟩
      intro z hz
      rcases List.mem_cons.mp hz with hz | hz
      · rw [hz]
        exact hxy
      · exact htrans x y z hxy (hy z hz)
    · rw [if_neg hxy]
      refine List.pairwise_cons.mpr ⟨?_, ih hys⟩
      intro z hz
      rcases (mem_insertSorted le x ys z).mp hz with hz | hz
      · rw [hz]
        rcases htot x y with hc | hc
        · exact absurd hc hxy
        · exact hc
      · exact hy z hz

theorem sortByKey_pairwise {α : Type} (le : α → α → Bool)
    (htot : ∀ a b : α, le a b = true ∨ le b a = true)
    (htrans : ∀ a b c : α, le a b = true → le b c = true → le a c = true)
    (l : List α) :
    (sortByKey le l).Pairwise fun a b => le a b = true := by
  induction l with
  | nil => exact List.Pairwise.nil
  | cons x xs ih =>
    unfold sortByKey
    exact insertSorted_pairwise le htot htrans x (sortByKey le xs) ih

/-! ## Per-slot contribution to a bone's track -/

theorem cellContribution_slot {R : Type} (ar : QArith R)
    (keyframes : List (SkaKeyframe R)) (K : ℕ) (grid : List (List ℕ))
    (b t : ℕ) (e : TrackEntry R)
    (h : cellContribution ar keyframes K grid b t = some e) :
    e.frame_time_slot_index = t := by
  simp only [cellContribution] at h
  split at h
  · exact absurd h (by simp)
  · split at h
    · exact absurd h (by simp)
    · rw [Option.some.injEq] at h
      rw [← h]
      rfl

theorem filterMap_range_filter {α : Type} (f : ℕ → Option α) (p : α → Bool)
    (n s : ℕ) (hs : s < n)
    (hp : ∀ t e, f t = some e → (p e = true ↔ t = s)) :
    ((List.range n).filterMap f).filter p = (f s).toList := by
  induction n with
  | zero => omega
  | succ n ih =>
    rw [List.range_succ, List.filterMap_append, List.filter_append]
    by_cases hsn : s = n
    · subst hsn
      have h1 : ((List.range s).filterMap f).filter p = [] := by
        rw [List.filter_eq_nil_iff]
        intro e he
        rw [List.mem_filterMap] at he
        obtain ⟨t, ht, hfe⟩ := he
        rw [List.mem_range] at ht
        rw [hp t e hfe]
        omega
      rw [h1, List.nil_append]
      cases hfs : f s with
      | none => simp [List.filterMap_cons, hfs]
      | some e => simp [List.filterMap_cons, hfs, (hp s e hfs).mpr rfl]
    · have hs' : s < n := by omega
      rw [ih hs']
      cases hfn : f n with
      | none => simp [List.filterMap_cons, hfn]
      | some e =>
        have hpe : p e = false := by
          rw [← Bool.not_eq_true, hp n e hfn]
          omega
        simp [List.filterMap_cons, hfn, hpe]

/-- The final (sorted) track of bone `b`, filtered to the entries at time
slot `s`, is exactly the contribution of grid cell `(s, b)`. -/
theorem track_filter_slot {R : Type} (ar : QArith R) (d : List ℕ)
    (h : exceptIsOk (parseSka ar d) = true) (b s : ℕ)
    (hb : b < readU16 d 8) (hs : s < offsetTimeSlotCount (readU16 d 10)) :
    ((parseSkaD ar d).bone_animation_tracks.getD b []).filter
        (fun e => decide (e.frame_time_slot_index = s)) =
      (cellContribution ar (keyframesOf ar d) (readU32 d 12)
        (keyOffsetGridOf d) b s).toList := by
  obtain ⟨h1, h2⟩ := (parseSka_ok_iff ar d).mp h
  unfold parseSkaD
  rw [parseSka_ok_eq ar d h1 h2]
  have htr : ((List.range (readU16 d 8)).map
      (trackOf ar (keyframesOf ar d) (readU32 d 12) (keyOffsetGridOf d)
        (offsetTimeSlotCount (readU16 d 10)))).getD b [] =
      trackOf ar (keyframesOf ar d) (readU32 d 12) (keyOffsetGridOf d)
        (offsetTimeSlotCount (readU16 d 10)) b := by
    rw [List.getD_eq_getElem?_getD, List.getElem?_map, List.getElem?_range hb]
    rfl
  dsimp only
  rw [htr]
  unfold trackOf
  have hperm := (sortByKey_perm entryLE
    (rawTrackOf ar (keyframesOf ar d) (readU32 d 12) (keyOffsetGridOf d)
      (offsetTimeSlotCount (readU16 d 10)) b)).filter
    (fun e => decide (e.frame_time_slot_index = s))
  have hraw : (rawTrackOf ar (keyframesOf ar d) (readU32 d 12)
      (keyOffsetGridOf d) (offsetTimeSlotCount (readU16 d 10)) b).filter
      (fun e => decide (e.frame_time_slot_index = s)) =
      (cellContribution ar (keyframesOf ar d) (readU32 d 12)
        (keyOffsetGridOf d) b s).toList := by
    unfold rawTrackOf
    apply filterMap_range_filter _ _ _ _ hs
    intro t e he
    have := cellContribution_slot ar _ _ _ _ _ _ he
    simp [this]
  rw [hraw] at hperm
  cases hfs : cellContribution ar (keyframesOf ar d) (readU32 d 12)
      (keyOffsetGridOf d) b s with
  | none =>
    rw [hfs] at hperm
    exact hperm.eq_nil
  | some e =>
    rw [hfs] at hperm
    exact List.perm_singleton.mp hperm

/-! ## Claim C2 -/

/-- C2: in every decoded file, a grid cell holding the sentinel 0xFFFF or
a value at or above keyframe_count contributes no entry to its bone's
track, and every other cell value contributes exactly one entry, carrying
the quaternion and translation of the pooled keyframe at that index. -/
theorem claim_C2_grid_cells {R : Type} (ar : QArith R) (d : List ℕ)
    (h : exceptIsOk (parseSka ar d) = true) (b s : ℕ)
    (hb : b < readU16 d 8) (hs : s < offsetTimeSlotCount (readU16 d 10)) :
    ((((keyOffsetGridOf d).getD s []).getD b 0xFFFF = 0xFFFF ∨
        readU32 d 12 ≤ ((keyOffsetGridOf d).getD s []).getD b 0xFFFF) →
      ((parseSkaD ar d).bone_animation_tracks.getD b []).filter
          (fun e => decide (e.frame_time_slot_index = s)) = []) ∧
    (((keyOffsetGridOf d).getD s []).getD b 0xFFFF ≠ 0xFFFF →
      ((keyOffsetGridOf d).getD s []).getD b 0xFFFF < readU32 d 12 →
      ((parseSkaD ar d).bone_animation_tracks.getD b []).filter
          (fun e => decide (e.frame_time_slot_index = s)) =
        [trackEntryOfKeyframe s ((keyframesOf ar d).getD
          (((keyOffsetGridOf d).getD s []).getD b 0xFFFF)
          (dummyKeyframe ar))]) := by
  have hts := track_filter_slot ar d h b s hb hs
  constructor
  · intro hv
    rw [hts]
    unfold cellContribution
    rcases hv with hv | hv
    · rw [if_pos hv]
      rfl
    · by_cases hv' : ((keyOffsetGridOf d).getD s []).getD b 0xFFFF = 0xFFFF
      · rw [if_pos hv']
        rfl
      · rw [if_neg hv', if_pos hv]
        rfl
  · intro hv1 hv2
    rw [hts]
    unfold cellContribution
    rw [if_neg hv1, if_neg (by omega)]
    rfl

/-- Witness for C2 at the scenario buffer: grid cell (0,0) holds 0, a
valid pool index, and the track of bone 0 has exactly the one entry
referencing pooled keyframe 0. -/
theorem claim_C2_witness :
    ((((keyOffsetGridOf scenarioBytes).getD 0 []).getD 0 0xFFFF = 0xFFFF ∨
        readU32 scenarioBytes 12 ≤
          ((keyOffsetGridOf scenarioBytes).getD 0 []).getD 0 0xFFFF) →
      ((parseSkaD ratAr scenarioBytes).bone_animation_tracks.getD 0 []).filter
          (fun e => decide (e.frame_time_slot_index = 0)) = []) ∧
    (((keyOffsetGridOf scenarioBytes).getD 0 []).getD 0 0xFFFF ≠ 0xFFFF →
      ((keyOffsetGridOf scenarioBytes).getD 0 []).getD 0 0xFFFF <
        readU32 scenarioBytes 12 →
      ((parseSkaD ratAr scenarioBytes).bone_animation_tracks.getD 0 []).filter
          (fun e => decide (e.frame_time_slot_index = 0)) =
        [trackEntryOfKeyframe 0 ((keyframesOf ratAr scenarioBytes).getD
          (((keyOffsetGridOf scenarioBytes).getD 0 []).getD 0 0xFFFF)
          (dummyKeyframe ratAr))]) :=
  claim_C2_grid_cells ratAr scenarioBytes (by decide) 0 0 (by decide) (by decide)

/-! ## Claim C3 (corrected) -/

/-- C3 counterexample: in the decoded `infTimeBytes` file, bone 0's track
is [slot 0 with absent time, slot 1 resolved to +inf].  The sort key maps
both the absent time and the resolved infinite time to `inf`, so the tie
is broken by slot index and the absent entry sorts *before* a resolved
entry — contradicting "entries with absent time are placed after all
resolved entries". -/
theorem claim_C3_counterexample :
    (((parseSkaD ratAr infTimeBytes).bone_animation_tracks.getD 0 []).map
        fun e => (e.frame_time_slot_index, e.absolute_time_value)) =
      [(0, none), (1, some F32.inf)] ∧
    ¬ absentEntriesLast
        ((parseSkaD ratAr infTimeBytes).bone_animation_tracks.getD 0 []) := by
  constructor
  · decide
  · unfold absentEntriesLast
    decide

theorem map_range_getD {α : Type} (n b : ℕ) (f : ℕ → List α) (hb : b < n) :
    ((List.range n).map f).getD b [] = f b := by
  rw [List.getD_eq_getElem?_getD, List.getElem?_map, List.getElem?_range hb]
  rfl

/-- C3 as amended: for every decoded file whose time table is free of NaN
(where the Python sort is deterministic), every bone's track is sorted
ascending by the key (resolved time with absent mapped to +inf, time-slot
index), and in particular no entry with absent time precedes an entry
whose time resolved to a finite value. -/
theorem claim_C3_track_ordering {R : Type} (ar : QArith R) (d : List ℕ)
    (h : exceptIsOk (parseSka ar d) = true)
    (hnan : F32.nan ∉ timeValuesOf d) (b : ℕ) (hb : b < readU16 d 8) :
    ((parseSkaD ar d).bone_animation_tracks.getD b []).Pairwise
        (fun a c => entryLE a c = true) ∧
      absentAfterFinite ((parseSkaD ar d).bone_animation_tracks.getD b []) := by
  obtain ⟨h1, h2⟩ := (parseSka_ok_iff ar d).mp h
  unfold parseSkaD
  rw [parseSka_ok_eq ar d h1 h2]
  dsimp only
  rw [map_range_getD _ b _ hb]
  unfold trackOf
  have hsorted := sortByKey_pairwise entryLE entryLE_total entryLE_trans
    (rawTrackOf ar (keyframesOf ar d) (readU32 d 12) (keyOffsetGridOf d)
      (offsetTimeSlotCount (readU16 d 10)) b)
  refine ⟨hsorted, ?_⟩
  unfold absentAfterFinite
  refine hsorted.imp ?_
  intro a c hle hac
  obtain ⟨ha, q, hc⟩ := hac
  unfold entryLE entryTimeKey at hle
  rw [ha, hc] at hle
  simp [F32.ltB] at hle

/-- Witness for the amended C3 at the scenario buffer (finite time table,
bone 0). -/
theorem claim_C3_witness :
    ((parseSkaD ratAr scenarioBytes).bone_animation_tracks.getD 0 []).Pairwise
        (fun a c => entryLE a c = true) ∧
      absentAfterFinite
        ((parseSkaD ratAr scenarioBytes).bone_animation_tracks.getD 0 []) :=
  claim_C3_track_ordering ratAr scenarioBytes (by decide) (by decide) 0
    (by decide)

/-! ## Claim C7 -/

theorem buildBoneMap_explicit_spec {M : Type} (bones : List (SkelBone M))
    (l : List (ℕ × SkelBone M)) (m0 : ℤ → Option ℕ)
    (hl : ∀ p ∈ l, bones[p.1]? = some p.2)
    (h0 : ∀ (k : ℤ) (n : ℕ), m0 k = some n →
      ∃ b, bones[n]? = some b ∧ b.boneId = some k) :
    ∀ (k : ℤ) (n : ℕ),
      (l.foldl
        (fun m ib =>
          match ib.2.boneId with
          | some id => fun k => if k = id then some ib.1 else m k
          | none => m)
        m0) k = some n →
      ∃ b, bones[n]? = some b ∧ b.boneId = some k := by
  induction l generalizing m0 with
  | nil => exact h0
  | cons p rest ih =>
    intro k n h
    rw [List.foldl_cons] at h
    refine ih _ (fun q hq => hl q (List.mem_cons_of_mem p hq)) ?_ k n h
    intro k' n' h'
    cases hid : p.2.boneId with
    | none =>
      simp only [hid] at h'
      exact h0 k' n' h'
    | some id =>
      simp only [hid] at h'
      by_cases hk : k' = id
      · rw [if_pos hk] at h'
        rw [Option.some.injEq] at h'
        refine ⟨p.2, ?_, ?_⟩
        · rw [← h']
          exact hl p (List.mem_cons_self p rest)
        · rw [hid, hk]
      · rw [if_neg hk] at h'
        exact h0 k' n' h'

/-- C7: the bone-index-to-pose-bone mapping is all-or-nothing: when no
bone carries an explicit id, SKA bone index i maps to the i-th bone of
the list; when any bone carries one, every mapped index comes from an
explicitly indexed bone (no positional fallback). -/
theorem claim_C7_bone_mapping {M : Type} (bones : List (SkelBone M)) :
    ((∀ b ∈ bones, b.boneId = none) →
      ∀ i : ℕ, i < bones.length → buildBoneMap bones (i : ℤ) = some i) ∧
    ((∃ b ∈ bones, b.boneId.isSome = true) →
      ∀ (k : ℤ) (n : ℕ), buildBoneMap bones k = some n →
        ∃ b, bones[n]? = some b ∧ b.boneId = some k) := by
  constructor
  · intro hnone i hi
    have hany : (bones.any fun b => b.boneId.isSome) = false := by
      rw [← Bool.not_eq_true, List.any_eq_true]
      rintro ⟨b, hb, hsome⟩
      rw [hnone b hb] at hsome
      exact absurd hsome (by simp)
    unfold buildBoneMap
    rw [hany]
    simp only [Bool.false_eq_true, if_false]
    rw [if_pos ⟨by positivity, by exact_mod_cast hi⟩]
    simp
  · intro hsome k n h
    have hany : (bones.any fun b => b.boneId.isSome) = true :=
      List.any_eq_true.mpr hsome
    unfold buildBoneMap at h
    rw [hany] at h
    simp only [if_true] at h
    refine buildBoneMap_explicit_spec bones bones.enum (fun _ => none)
      (fun p hp => List.mem_enum_iff_getElem?.mp hp) (fun _ _ h => by
        exact absurd h (by simp)) k n h

/-- Witness for C7: positional fallback on the id-free skeleton, and
explicit-only mapping on the skeleton whose first bone carries id 7. -/
theorem claim_C7_witness :
    buildBoneMap skelNoIds ((1 : ℕ) : ℤ) = some 1 ∧
      ∃ b, skelWithId[(0 : ℕ)]? = some b ∧ b.boneId = some 7 :=
  ⟨(claim_C7_bone_mapping skelNoIds).1 (by decide) 1 (by decide),
    (claim_C7_bone_mapping skelWithId).2 (by decide) 7 0 (by decide)⟩

theorem sampleLoop_spec {R Q V M : Type} (api : MathApi R Q V M) (lrr : Q)
    (rest prest : M) (entries : ℕ → Option (TrackEntry R)) (fo : ℕ) (n : ℕ) :
    (List.range n).foldl (sampleStep api lrr rest prest entries fo)
      { lastRot := none, lastTrans := none, rots := [], locs := [] } =
    { lastRot := heldRot api lrr entries n
      lastTrans := heldTrans api rest prest entries n
      rots := (List.range n).filterMap fun s =>
        (heldRot api lrr entries (s + 1)).map fun r => (fo + s, r)
      locs := (List.range n).filterMap fun s =>
        (heldTrans api rest prest entries (s + 1)).map fun v => (fo + s, v) } := by
  induction n with
  | zero => rfl
  | succ n ih =>
    rw [List.range_succ, List.foldl_append, ih, List.filterMap_append,
      List.filterMap_append]
    simp only [List.foldl_cons, List.foldl_nil, List.filterMap_cons,
      List.filterMap_nil]
    simp only [sampleStep, heldRot, heldTrans]
    cases hE : entries n with
    | none =>
      simp only [hE]
      cases hR : heldRot api lrr entries n <;>
        cases hT : heldTrans api rest prest entries n <;>
          simp [hR, hT]
    | some e =>
      simp only [hE]
      cases hq : e.quaternion with
      | none =>
        cases ht : e.translation with
        | none =>
          simp only [hq, ht]
          cases hR : heldRot api lrr entries n <;>
            cases hT : heldTrans api rest prest entries n <;>
              simp [hR, hT]
        | some t =>
          simp only [hq, ht]
          cases hR : heldRot api lrr entries n <;> simp [hR]
      | some q =>
        cases ht : e.translation with
        | none =>
          simp only [hq, ht]
          cases hT : heldTrans api rest prest entries n <;> simp [hT]
        | some t =>
          simp only [hq, ht]
          simp

theorem sampleBone_eq {R Q V M : Type} (api : MathApi R Q V M) (lrr : Q)
    (rest prest : M) (fo : ℕ) (track : List (TrackEntry R)) (tc : ℕ) :
    sampleBone api lrr rest prest fo track tc =
      ((List.range (localTimeCount track tc)).filterMap fun s =>
        (heldRot api lrr (entriesBySlot track) (s + 1)).map fun r => (fo + s, r),
       (List.range (localTimeCount track tc)).filterMap fun s =>
        (heldTrans api rest prest (entriesBySlot track) (s + 1)).map
          fun v => (fo + s, v)) := by
  show (((List.range (localTimeCount track tc)).foldl
      (sampleStep api lrr rest prest (entriesBySlot track) fo)
      { lastRot := none, lastTrans := none, rots := [], locs := [] }).rots,
    ((List.range (localTimeCount track tc)).foldl
      (sampleStep api lrr rest prest (entriesBySlot track) fo)
      { lastRot := none, lastTrans := none, rots := [], locs := [] }).locs) = _
  rw [sampleLoop_spec]

theorem mem_sampleBone_rot {R Q V M : Type} (api : MathApi R Q V M) (lrr : Q)
    (rest prest : M) (fo : ℕ) (track : List (TrackEntry R)) (tc s : ℕ)
    (hs : s < localTimeCount track tc) (r : Q) :
    (fo + s, r) ∈ (sampleBone api lrr rest prest fo track tc).1 ↔
      heldRot api lrr (entriesBySlot track) (s + 1) = some r := by
  rw [sampleBone_eq]
  constructor
  · intro hm
    rw [List.mem_filterMap] at hm
    obtain ⟨t, _, hft⟩ := hm
    cases hh : heldRot api lrr (entriesBySlot track) (t + 1) with
    | none => rw [hh] at hft; exact absurd hft (by simp)
    | some r' =>
      rw [hh] at hft
      simp only [Option.map_some'] at hft
      rw [Option.some.injEq, Prod.mk.injEq] at hft
      obtain ⟨hfr, hrr⟩ := hft
      have : t = s := by omega
      rw [← this, hh, hrr]
  · intro hh
    rw [List.mem_filterMap]
    exact ⟨s, List.mem_range.mpr hs, by rw [hh]; rfl⟩

theorem mem_sampleBone_loc {R Q V M : Type} (api : MathApi R Q V M) (lrr : Q)
    (rest prest : M) (fo : ℕ) (track : List (TrackEntry R)) (tc s : ℕ)
    (hs : s < localTimeCount track tc) (v : V) :
    (fo + s, v) ∈ (sampleBone api lrr rest prest fo track tc).2 ↔
      heldTrans api rest prest (entriesBySlot track) (s + 1) = some v := by
  rw [sampleBone_eq]
  constructor
  · intro hm
    rw [List.mem_filterMap] at hm
    obtain ⟨t, _, hft⟩ := hm
    cases hh : heldTrans api rest prest (entriesBySlot track) (t + 1) with
    | none => rw [hh] at hft; exact absurd hft (by simp)
    | some v' =>
      rw [hh] at hft
      simp only [Option.map_some'] at hft
      rw [Option.some.injEq, Prod.mk.injEq] at hft
      obtain ⟨hfv, hvv⟩ := hft
      have : t = s := by omega
      rw [← this, hh, hvv]
  · intro hh
    rw [List.mem_filterMap]
    exact ⟨s, List.mem_range.mpr hs, by rw [hh]; rfl⟩

theorem heldRot_eq_none {R Q V M : Type} (api : MathApi R Q V M) (lrr : Q)
    (entries : ℕ → Option (TrackEntry R)) (n : ℕ)
    (h : ∀ t, t < n → entries t = none) :
    heldRot api lrr entries n = none := by
  induction n with
  | zero => rfl
  | succ n ih =>
    have hn : entries n = none := h n (by omega)
    simp only [heldRot, hn]
    exact ih fun t ht => h t (by omega)

theorem heldTrans_eq_none {R Q V M : Type} (api : MathApi R Q V M)
    (rest prest : M) (entries : ℕ → Option (TrackEntry R)) (n : ℕ)
    (h : ∀ t, t < n → entries t = none) :
    heldTrans api rest prest entries n = none := by
  induction n with
  | zero => rfl
  | succ n ih =>
    have hn : entries n = none := h n (by omega)
    simp only [heldTrans, hn]
    exact ih fun t ht => h t (by omega)

theorem heldRot_congr {R Q V M : Type} (api : MathApi R Q V M) (lrr : Q)
    (entries : ℕ → Option (TrackEntry R)) (s' s : ℕ) (hle : s' ≤ s)
    (hgap : ∀ t, s' < t → t ≤ s → entries t = none) :
    heldRot api lrr entries (s + 1) = heldRot api lrr entries (s' + 1) := by
  induction s with
  | zero =>
    have : s' = 0 := by omega
    rw [this]
  | succ s ih =>
    by_cases hss : s' = s + 1
    · rw [hss]
    · have h1 : entries (s + 1) = none := hgap (s + 1) (by omega) (by omega)
      have : heldRot api lrr entries (s + 1 + 1) = heldRot api lrr entries (s + 1) := by
        simp only [heldRot, h1]
      rw [this]
      exact ih (by omega) fun t ht1 ht2 => hgap t ht1 (by omega)

theorem heldTrans_congr {R Q V M : Type} (api : MathApi R Q V M)
    (rest prest : M) (entries : ℕ → Option (TrackEntry R)) (s' s : ℕ)
    (hle : s' ≤ s)
    (hgap : ∀ t, s' < t → t ≤ s → entries t = none) :
    heldTrans api rest prest entries (s + 1) =
      heldTrans api rest prest entries (s' + 1) := by
  induction s with
  | zero =>
    have : s' = 0 := by omega
    rw [this]
  | succ s ih =>
    by_cases hss : s' = s + 1
    · rw [hss]
    · have h1 : entries (s + 1) = none := hgap (s + 1) (by omega) (by omega)
      have : heldTrans api rest prest entries (s + 1 + 1) =
          heldTrans api rest prest entries (s + 1) := by
        simp only [heldTrans, h1]
      rw [this]
      exact ih (by omega) fun t ht1 ht2 => hgap t ht1 (by omega)

theorem claim_C4_hold_last {R Q V M : Type} (api : MathApi R Q V M)
    (local_rest_rotation : Q) (rest_matrix parent_rest_matrix : M)
    (frame_offset : ℕ) (bone_track : List (TrackEntry R)) (time_count s : ℕ)
    (hs : s < localTimeCount bone_track time_count)
    (hnone : entriesBySlot bone_track s = none) :
    ((∀ t, t ≤ s → entriesBySlot bone_track t = none) →
      (∀ r, (frame_offset + s, r) ∉ (sampleBone api local_rest_rotation
        rest_matrix parent_rest_matrix frame_offset bone_track time_count).1) ∧
      (∀ v, (frame_offset + s, v) ∉ (sampleBone api local_rest_rotation
        rest_matrix parent_rest_matrix frame_offset bone_track time_count).2)) ∧
    (∀ s', s' ≤ s → (entriesBySlot bone_track s').isSome = true →
      (∀ t, s' < t → t ≤ s → entriesBySlot bone_track t = none) →
      ((∀ r, (frame_offset + s, r) ∈ (sampleBone api local_rest_rotation
          rest_matrix parent_rest_matrix frame_offset bone_track time_count).1 ↔
        (frame_offset + s', r) ∈ (sampleBone api local_rest_rotation
          rest_matrix parent_rest_matrix frame_offset bone_track time_count).1) ∧
       (∀ v, (frame_offset + s, v) ∈ (sampleBone api local_rest_rotation
          rest_matrix parent_rest_matrix frame_offset bone_track time_count).2 ↔
        (frame_offset + s', v) ∈ (sampleBone api local_rest_rotation
          rest_matrix parent_rest_matrix frame_offset bone_track time_count).2) ∧
       (∀ e, entriesBySlot bone_track s' = some e →
         (e.quaternion.isSome = true →
           ∃ r, (frame_offset + s, r) ∈ (sampleBone api local_rest_rotation
             rest_matrix parent_rest_matrix frame_offset bone_track time_count).1 ∧
             (frame_offset + s', r) ∈ (sampleBone api local_rest_rotation
               rest_matrix parent_rest_matrix frame_offset bone_track
               time_count).1) ∧
         (e.translation.isSome = true →
           ∃ v, (frame_offset + s, v) ∈ (sampleBone api local_rest_rotation
             rest_matrix parent_rest_matrix frame_offset bone_track time_count).2 ∧
             (frame_offset + s', v) ∈ (sampleBone api local_rest_rotation
               rest_matrix parent_rest_matrix frame_offset bone_track
               time_count).2)))) := by
  constructor
  · intro hall
    constructor
    · intro r hr
      rw [mem_sampleBone_rot api _ _ _ _ _ _ _ hs] at hr
      rw [heldRot_eq_none api _ _ _ (fun t ht => hall t (by omega))] at hr
      exact absurd hr (by simp)
    · intro v hv
      rw [mem_sampleBone_loc api _ _ _ _ _ _ _ hs] at hv
      rw [heldTrans_eq_none api _ _ _ _ (fun t ht => hall t (by omega))] at hv
      exact absurd hv (by simp)
  · intro s' hle hpop hgap
    have hs' : s' < localTimeCount bone_track time_count := by omega
    have hcr := heldRot_congr api local_rest_rotation (entriesBySlot bone_track)
      s' s hle hgap
    have hct := heldTrans_congr api rest_matrix parent_rest_matrix
      (entriesBySlot bone_track) s' s hle hgap
    refine ⟨?_, ?_, ?_⟩
    · intro r
      rw [mem_sampleBone_rot api _ _ _ _ _ _ _ hs,
        mem_sampleBone_rot api _ _ _ _ _ _ _ hs', hcr]
    · intro v
      rw [mem_sampleBone_loc api _ _ _ _ _ _ _ hs,
        mem_sampleBone_loc api _ _ _ _ _ _ _ hs', hct]
    · intro e he
      constructor
      · intro hq
        obtain ⟨q, hq'⟩ := Option.isSome_iff_exists.mp hq
        have hr : heldRot api local_rest_rotation (entriesBySlot bone_track)
            (s' + 1) = some (api.rotationDifference local_rest_rotation
              (api.mkQuat q.2.2.2 q.1 q.2.1 q.2.2.1)) := by
          simp only [heldRot, he, hq']
        refine ⟨api.rotationDifference local_rest_rotation
          (api.mkQuat q.2.2.2 q.1 q.2.1 q.2.2.1), ?_, ?_⟩
        · rw [mem_sampleBone_rot api _ _ _ _ _ _ _ hs, hcr]
          exact hr
        · rw [mem_sampleBone_rot api _ _ _ _ _ _ _ hs']
          exact hr
      · intro ht
        obtain ⟨t, ht'⟩ := Option.isSome_iff_exists.mp ht
        have hv : heldTrans api rest_matrix parent_rest_matrix
            (entriesBySlot bone_track) (s' + 1) = some (api.toTranslation
              (api.matMul (api.invertedSafe rest_matrix)
                (api.matMul parent_rest_matrix
                  (api.translationM (api.mkVec t.1 t.2.1 t.2.2))))) := by
          simp only [heldTrans, he, ht']
        refine ⟨api.toTranslation (api.matMul (api.invertedSafe rest_matrix)
          (api.matMul parent_rest_matrix
            (api.translationM (api.mkVec t.1 t.2.1 t.2.2)))), ?_, ?_⟩
        · rw [mem_sampleBone_loc api _ _ _ _ _ _ _ hs, hct]
          exact hv
        · rw [mem_sampleBone_loc api _ _ _ _ _ _ _ hs']
          exact hv

/-- Witness for C4 at the scenario track (entry at slot 0 only) sampled
over time_count 4: a rotation sample sits at frame 1+3 exactly when the
identical value sits at frame 1+0 (the held value of the most recent
populated slot). -/
theorem claim_C4_witness :
    ((1 : ℕ) + 3, (5 : ℕ)) ∈ (sampleBone natApi 1 0 0 1
        ((parseSkaD ratAr scenarioBytes).bone_animation_tracks.getD 0 []) 4).1 ↔
      ((1 : ℕ) + 0, (5 : ℕ)) ∈ (sampleBone natApi 1 0 0 1
        ((parseSkaD ratAr scenarioBytes).bone_animation_tracks.getD 0 []) 4).1 :=
  (((claim_C4_hold_last natApi 1 0 0 1
      ((parseSkaD ratAr scenarioBytes).bone_animation_tracks.getD 0 []) 4 3
      (by decide) (by decide)).2 0 (by omega) (by decide)
      (fun t h1 h2 => by interval_cases t <;> decide)).1) 5

/-! ## Claim C5 (corrected) -/

/-- C5 counterexample: retargeting the §8 scenario emits rotation and
location samples at frames 1 *and* 2 — the sample domain is
`range(time_count) = {0, 1}` and slot 1 re-emits the held slot-0 values —
contradicting "exactly one rotation sample and one translation sample,
both at frame 1, and no samples at any other frame". -/
theorem claim_C5_counterexample :
    rotFrames scenarioResult testActionName = [1, 2] ∧
      locFrames scenarioResult testActionName = [1, 2] ∧
      ¬(rotFrames scenarioResult testActionName = [1] ∧
        locFrames scenarioResult testActionName = [1]) := by
  refine ⟨by decide, by decide, ?_⟩
  rintro ⟨h1, _⟩
  have h12 : rotFrames scenarioResult testActionName = [1, 2] := by decide
  rw [h1] at h12
  exact absurd h12 (by decide)

/-- C5 as amended: for every arithmetic carrier and math API, retargeting
the §8 scenario file against the single-root identity-rest skeleton
records exactly two rotation samples and two location samples — at frames
1 and 2 — where the frame-2 sample of each channel repeats the frame-1
value (the held value of slot 0). -/
theorem claim_C5_scenario_samples {R Q V M : Type} (ar : QArith R)
    (api : MathApi R Q V M) (armature_name : String) :
    ∃ r v,
      lookupAction
        (applySka api (parseSkaD ar scenarioBytes) armature_name
          (singleRootSkelM api.identityM) testActionName (emptyHost Q V))
        testActionName =
      some { rotKeys := [(rootBoneName, 1, r), (rootBoneName, 2, r)]
             locKeys := [(rootBoneName, 1, v), (rootBoneName, 2, v)] } :=
  ⟨_, _, rfl⟩

/-! ## Claim C9 (corrected) -/

/-- C6: each raw int16 quaternion component is divided by 32767.0; if the
resulting sum of squares exceeds 1e-12 the components are divided by its
square root, making the decoded quaternion exactly unit length in the
idealized (exact) real arithmetic; all-zero raw components pass through as
the exact zero quadruple.  The carrier hypotheses pin the abstract
arithmetic to real semantics. -/
theorem claim_C6_quaternion_normalization (ar : QArith ℝ)
    (hofRat : ∀ q : ℚ, ar.ofRat q = (q : ℝ))
    (hadd : ∀ a b : ℝ, ar.add a b = a + b)
    (hmul : ∀ a b : ℝ, ar.mul a b = a * b)
    (hdiv : ∀ a b : ℝ, ar.div a b = a / b)
    (hsqrt : ∀ a : ℝ, ar.sqrt a = Real.sqrt a)
    (hltB : ∀ a b : ℝ, ar.ltB a b = true ↔ a < b)
    (raw : ℤ × ℤ × ℤ × ℤ) :
    ((1 : ℝ) / 10 ^ 12 <
        ((raw.1 : ℝ) / 32767) ^ 2 + ((raw.2.1 : ℝ) / 32767) ^ 2 +
          ((raw.2.2.1 : ℝ) / 32767) ^ 2 + ((raw.2.2.2 : ℝ) / 32767) ^ 2 →
      (decodeQuat ar raw).1 ^ 2 + (decodeQuat ar raw).2.1 ^ 2 +
        (decodeQuat ar raw).2.2.1 ^ 2 + (decodeQuat ar raw).2.2.2 ^ 2 = 1) ∧
    (raw = (0, 0, 0, 0) → decodeQuat ar raw = (0, 0, 0, 0)) := by
  obtain ⟨o, ad, mu, dv, sq, lt⟩ := ar
  simp only at hofRat hadd hmul hdiv hsqrt hltB
  have ho : o = fun q : ℚ => (q : ℝ) := funext hofRat
  have ha : ad = fun a b : ℝ => a + b := funext fun a => funext fun b => hadd a b
  have hm : mu = fun a b : ℝ => a * b := funext fun a => funext fun b => hmul a b
  have hd : dv = fun a b : ℝ => a / b := funext fun a => funext fun b => hdiv a b
  have hsq : sq = Real.sqrt := funext hsqrt
  subst ho ha hm hd hsq
  constructor
  · intro hs
    simp only [decodeQuat]
    have hsum : ((0 : ℚ) : ℝ) + ((raw.1 : ℚ) : ℝ) / ((32767 : ℚ) : ℝ) *
          (((raw.1 : ℚ) : ℝ) / ((32767 : ℚ) : ℝ)) +
          ((raw.2.1 : ℚ) : ℝ) / ((32767 : ℚ) : ℝ) *
          (((raw.2.1 : ℚ) : ℝ) / ((32767 : ℚ) : ℝ)) +
          ((raw.2.2.1 : ℚ) : ℝ) / ((32767 : ℚ) : ℝ) *
          (((raw.2.2.1 : ℚ) : ℝ) / ((32767 : ℚ) : ℝ)) +
          ((raw.2.2.2 : ℚ) : ℝ) / ((32767 : ℚ) : ℝ) *
          (((raw.2.2.2 : ℚ) : ℝ) / ((32767 : ℚ) : ℝ)) =
        ((raw.1 : ℝ) / 32767) ^ 2 + ((raw.2.1 : ℝ) / 32767) ^ 2 +
          ((raw.2.2.1 : ℝ) / 32767) ^ 2 + ((raw.2.2.2 : ℝ) / 32767) ^ 2 := by
      push_cast
      ring
    have heps : (((1 : ℚ) / 10 ^ 12 : ℚ) : ℝ) = (1 : ℝ) / 10 ^ 12 := by
      push_cast
      ring
    have hcond : lt (((1 : ℚ) / 10 ^ 12 : ℚ) : ℝ)
        (((0 : ℚ) : ℝ) + ((raw.1 : ℚ) : ℝ) / ((32767 : ℚ) : ℝ) *
          (((raw.1 : ℚ) : ℝ) / ((32767 : ℚ) : ℝ)) +
          ((raw.2.1 : ℚ) : ℝ) / ((32767 : ℚ) : ℝ) *
          (((raw.2.1 : ℚ) : ℝ) / ((32767 : ℚ) : ℝ)) +
          ((raw.2.2.1 : ℚ) : ℝ) / ((32767 : ℚ) : ℝ) *
          (((raw.2.2.1 : ℚ) : ℝ) / ((32767 : ℚ) : ℝ)) +
          ((raw.2.2.2 : ℚ) : ℝ) / ((32767 : ℚ) : ℝ) *
          (((raw.2.2.2 : ℚ) : ℝ) / ((32767 : ℚ) : ℝ))) = true := by
      rw [hltB, hsum, heps]
      exact hs
    rw [if_pos hcond]
    dsimp only
    rw [hsum]
    have hpos : (0 : ℝ) < ((raw.1 : ℝ) / 32767) ^ 2 + ((raw.2.1 : ℝ) / 32767) ^ 2 +
        ((raw.2.2.1 : ℝ) / 32767) ^ 2 + ((raw.2.2.2 : ℝ) / 32767) ^ 2 := by
      have : (0 : ℝ) < (1 : ℝ) / 10 ^ 12 := by norm_num
      linarith
    have hset : ∀ x : ℝ,
        (x / Real.sqrt (((raw.1 : ℝ) / 32767) ^ 2 + ((raw.2.1 : ℝ) / 32767) ^ 2 +
          ((raw.2.2.1 : ℝ) / 32767) ^ 2 + ((raw.2.2.2 : ℝ) / 32767) ^ 2)) ^ 2 =
        x ^ 2 / (((raw.1 : ℝ) / 32767) ^ 2 + ((raw.2.1 : ℝ) / 32767) ^ 2 +
          ((raw.2.2.1 : ℝ) / 32767) ^ 2 + ((raw.2.2.2 : ℝ) / 32767) ^ 2) := by
      intro x
      rw [div_pow, Real.sq_sqrt hpos.le]
    push_cast
    rw [hset, hset, hset, hset, div_add_div_same, div_add_div_same,
      div_add_div_same, div_eq_one_iff_eq hpos.ne']
  · intro h0
    subst h0
    simp only [decodeQuat]
    rw [if_neg ?hneg]
    case hneg =>
      rw [hltB]
      intro hlt0
      rw [show (((0 : ℤ), (0 : ℤ), (0 : ℤ), (0 : ℤ)).1 : ℚ) = 0 from rfl] at hlt0
      norm_num at hlt0
    norm_num

theorem claim_C6_witness :
    ∃ ar : QArith ℝ,
      (decodeQuat ar ((0 : ℤ), (0 : ℤ), (0 : ℤ), (32767 : ℤ))).1 ^ 2 +
          (decodeQuat ar ((0 : ℤ), (0 : ℤ), (0 : ℤ), (32767 : ℤ))).2.1 ^ 2 +
          (decodeQuat ar ((0 : ℤ), (0 : ℤ), (0 : ℤ), (32767 : ℤ))).2.2.1 ^ 2 +
          (decodeQuat ar ((0 : ℤ), (0 : ℤ), (0 : ℤ), (32767 : ℤ))).2.2.2 ^ 2 = 1 ∧
        decodeQuat ar ((0 : ℤ), (0 : ℤ), (0 : ℤ), (0 : ℤ)) = (0, 0, 0, 0) := by
  refine ⟨⟨fun q => (q : ℝ), fun a b => a + b, fun a b => a * b,
    fun a b => a / b, Real.sqrt, fun a b => decide (a < b)⟩, ?_, ?_⟩
  · exact (claim_C6_quaternion_normalization _ (fun q => rfl) (fun a b => rfl)
      (fun a b => rfl) (fun a b => rfl) (fun a => rfl)
      (fun a b => decide_eq_true_iff)
      ((0 : ℤ), (0 : ℤ), (0 : ℤ), (32767 : ℤ))).1 (by norm_num)
  · exact (claim_C6_quaternion_normalization _ (fun q => rfl) (fun a b => rfl)
      (fun a b => rfl) (fun a b => rfl) (fun a => rfl)
      (fun a b => decide_eq_true_iff)
      ((0 : ℤ), (0 : ℤ), (0 : ℤ), (0 : ℤ))).2 rfl
